import Mathlib

/-!
Shallow embedding of the stock-quote retrieval layer of the repository
(`backend/app/services/stock_service.py`).

Modelling conventions:
* Prices and raw numeric snapshot fields are rationals (`ℚ`); Python's
  2-decimal rounding at the output boundary is `round2` and its `int(...)`
  truncation toward zero is `pyInt`.
* A raw upstream field that may be missing from a snapshot dictionary is an
  `Option ℚ` (`none` = key absent / value `None`).
* An upstream call that may raise is an `Option` of its payload: `none`
  means the call raised, and every access of the same property in one
  `get_stock_quote` run sees the same outcome.
* Python truthiness on numbers (`x or y`, `if not x`) is `truthy` / `pyOr`:
  the only falsy numeric value is `0`; the only falsy string is `""`.
* Wall-clock time is a `Nat` (seconds); `datetime.now()` is passed in as the
  `now` argument.
-/

namespace StockService

/-- Raw fields read from `stock.fast_info` (a snapshot dictionary). -/
structure FastInfo where
  lastPrice : Option ℚ
  regularMarketPrice : Option ℚ
  previousClose : Option ℚ
  lastVolume : Option ℚ
  volume : Option ℚ
  marketCap : Option ℚ
deriving DecidableEq, Repr

/-- Raw fields read from `stock.info` (the full snapshot dictionary). -/
structure FullInfo where
  currentPrice : Option ℚ
  regularMarketPrice : Option ℚ
  previousClose : Option ℚ
  regularMarketPreviousClose : Option ℚ
  volume : Option ℚ
  regularMarketVolume : Option ℚ
  marketCap : Option ℚ
  longName : Option String
  shortName : Option String
  trailingPE : Option ℚ
deriving DecidableEq, Repr

/-- One daily bar returned by `stock.history`; only the columns the service
reads (`Low`, `Close`) are modelled. Bars are listed in chronological order,
as the upstream returns them. -/
structure Bar where
  low : ℚ
  close : ℚ
deriving DecidableEq, Repr

/-- The upstream client's behaviour for one symbol during one fetch:
`none` in a component means that upstream access raises. -/
structure Upstream where
  fast : Option FastInfo
  info : Option FullInfo
  hist1mo : Option (List Bar)
deriving DecidableEq, Repr

/-- The canonical quote record built by `get_stock_quote` (the Python dict
literal at lines 92–102, plus the optional `sparkline` key). `sparkline =
none` models the key being absent from the dict. -/
structure Quote where
  symbol : String
  name : String
  price : ℚ
  change : ℚ
  change_percent : ℚ
  volume : ℤ
  market_cap : ℤ
  pe_ratio : Option ℚ
  sparkline : Option (List ℚ)
  updated_at : Nat
deriving DecidableEq, Repr

/-- Python numeric truthiness: `None` and `0` are falsy. -/
def truthy : Option ℚ → Bool
  | none => false
  | some x => if x = 0 then false else true

/-- Python `a or b` on possibly-missing numbers: first truthy wins. -/
def pyOr (a b : Option ℚ) : Option ℚ :=
  if truthy a then a else b

/-- Python string truthiness: `None` and `""` are falsy. -/
def truthyS : Option String → Bool
  | none => false
  | some s => if s = "" then false else true

/-- Python `a or b` on possibly-missing strings. -/
def pyOrS (a b : Option String) : Option String :=
  if truthyS a then a else b

/-- Python `a or d` where `d` is a (truthy or default) plain string. -/
def pyStrD (a : Option String) (d : String) : String :=
  match a with
  | some s => if s = "" then d else s
  | none => d

/-- Python `int(x)`: truncation toward zero. -/
def pyInt (x : ℚ) : ℤ :=
  if 0 ≤ x then ⌊x⌋ else ⌈x⌉

/-- Python `symbol.upper()`: uppercase each character. -/
def pyUpper (s : String) : String :=
  ⟨s.data.map Char.toUpper⟩

/-- Python `s.endswith(suffix)`. -/
def pyEndsWith (s suffix : String) : Bool :=
  suffix.data.isSuffixOf s.data

/-- Python `round(x, 2)` at the output boundary: round to 2 decimal places.
(The tie-breaking direction is immaterial to every property proved below.) -/
def round2 (x : ℚ) : ℚ :=
  (round (x * 100) : ℤ) / 100

/-- The four mutable locals of `get_stock_quote` after lines 48–72:
`current_price`, `previous_close`, `volume`, `market_cap`. -/
structure RawFields where
  currentPrice : Option ℚ
  previousClose : Option ℚ
  volume : ℚ
  marketCap : ℚ
deriving DecidableEq, Repr

/-- Lines 48–72 of `get_stock_quote`: read `fast_info` under a bare
`except: pass`, then — only when `current_price` is still falsy — overwrite
all four locals from `stock.info`, again under a bare `except: pass`. -/
def resolveRaw (u : Upstream) : RawFields :=
  let base : RawFields :=
    match u.fast with
    | some f =>
        { currentPrice := pyOr f.lastPrice f.regularMarketPrice
          previousClose := f.previousClose
          volume := (pyOr f.lastVolume f.volume).getD 0
          marketCap := f.marketCap.getD 0 }
    | none => { currentPrice := none, previousClose := none, volume := 0, marketCap := 0 }
  if truthy base.currentPrice then base
  else
    match u.info with
    | some i =>
        { currentPrice := pyOr i.currentPrice i.regularMarketPrice
          previousClose := pyOr i.previousClose i.regularMarketPreviousClose
          volume := (pyOr i.volume i.regularMarketVolume).getD 0
          marketCap := i.marketCap.getD 0 }
    | none => base

/-- Lines 44–122 of `get_stock_quote`, minus the cache (lines 36–42 and
115–118): snapshot resolution, the mandatory-price check, the
previous-close default, change computation, name fallback, the result dict
and the sparkline block.

The `pe_ratio` entry of the result dict reads `stock.info` with no guard;
when that access raises, the exception reaches the outer `except` and the
whole call returns `None` — hence the `match u.info with | none => none`. -/
def normalizeQuote (symbol : String) (includeSparkline : Bool) (u : Upstream)
    (now : Nat) : Option Quote :=
  let r := resolveRaw u
  if truthy r.currentPrice then
    match u.info with
    | none => none
    | some i =>
      let cpv := r.currentPrice.getD 0
      let pcv := if truthy r.previousClose then r.previousClose.getD 0 else cpv
      let change := cpv - pcv
      let changePct := if pcv = 0 then 0 else change / pcv * 100
      some
        { symbol := pyUpper symbol
          name := pyStrD (pyOrS i.longName i.shortName) symbol
          price := round2 cpv
          change := round2 change
          change_percent := round2 changePct
          volume := pyInt r.volume
          market_cap := pyInt r.marketCap
          pe_ratio := i.trailingPE
          sparkline :=
            if includeSparkline then
              match u.hist1mo with
              | none => some []
              | some l => if l.isEmpty then none else some (l.map fun b => round2 b.close)
            else none
          updated_at := now }
  else none

/-- The class-level cache `_cache`: an association list keyed by the cache
key string, newest entry first (a later `put` for the same key shadows the
older one on lookup). -/
abbrev Cache := List (String × Quote × Nat)

/-- `_cache_duration = timedelta(seconds=30)`. -/
def cacheDuration : Nat := 30

/-- Python's `str(bool)` as it appears inside the f-string. -/
def pyBoolStr : Bool → String
  | true => "True"
  | false => "False"

/-- Line 37: `cache_key = f"quote_{symbol}_{include_sparkline}"`. The symbol
is interpolated exactly as given (no case normalization). -/
def cacheKey (symbol : String) (includeSparkline : Bool) : String :=
  "quote_" ++ symbol ++ "_" ++ pyBoolStr includeSparkline

/-- Lines 38–42: return the cached quote only when the entry exists and is
younger than `cacheDuration`; a stale entry is left in place but ignored. -/
def cacheGet (c : Cache) (key : String) (now : Nat) : Option Quote :=
  match c.lookup key with
  | some (q, t) => if now - t < cacheDuration then some q else none
  | none => none

/-- Whole of `get_stock_quote` (lines 24–122): cache check, fetch+normalize
on a miss, store on success. The `Bool` component records whether any
upstream access was issued (`false` exactly on a cache hit). -/
def get_stock_quote (cache : Cache) (now : Nat) (symbol : String)
    (includeSparkline : Bool) (u : Upstream) : Option Quote × Cache × Bool :=
  let key := cacheKey symbol includeSparkline
  match cacheGet cache key now with
  | some q => (some q, cache, false)
  | none =>
    match normalizeQuote symbol includeSparkline u now with
    | none => (none, cache, true)
    | some q => (some q, (key, q, now) :: cache, true)

/-- `POPULAR_SYMBOLS` (line 18). -/
def POPULAR_SYMBOLS : List String := ["AAPL", "GOOGL", "MSFT", "TSLA"]

/-- Outcome of one submitted per-symbol fetch as observed by the collection
loop of `get_popular_stocks` — necessarily a fetch whose future *completed*,
since `as_completed` yields only finished futures: `ok` is a completed
`get_stock_quote` call (itself returning a quote or `None`), `error` is
`future.result` re-raising an exception from the task. The `timeout=10`
argument at line 147 can never fire, because `result` is only called on
futures `as_completed` has already reported finished; a fetch that never
completes is never delivered to the loop at all — the loop blocks on it
inside `as_completed`, which is called without a timeout. -/
inductive FetchOutcome where
  | ok : Option Quote → FetchOutcome
  | error : FetchOutcome
deriving DecidableEq, Repr

/-- One iteration of the `as_completed` loop body (lines 144–152): append
the quote when the fetch completed with a truthy result, otherwise log and
continue. -/
def collectQuote (outcome : String → FetchOutcome) (acc : List Quote)
    (s : String) : List Quote :=
  match outcome s with
  | FetchOutcome.ok (some q) => acc ++ [q]
  | _ => acc

/-- `get_popular_stocks` (lines 124–155) over a given completion order of
the submitted symbols and the per-symbol outcomes. The model covers the
runs in which every submitted fetch completes; a never-completing fetch
blocks the `as_completed` loop forever and no result list is produced. -/
def get_popular_stocks (outcome : String → FetchOutcome)
    (order : List String) : List Quote :=
  order.foldl (collectQuote outcome) []

/-- The quote a symbol contributes to the batch result, if any. -/
def pickQuote (outcome : String → FetchOutcome) (s : String) : Option Quote :=
  match outcome s with
  | FetchOutcome.ok (some q) => some q
  | _ => none

/-- `history is None or history.empty` for a fetched bar frame. -/
def histEmpty : Option (List Bar) → Bool
  | none => true
  | some l => l.isEmpty

/-- `get_historical_price` (lines 178–221). `dailyBars t s e` models
`yf.Ticker(t).history(start=s, end=e)` (dates as day numbers): `none` when
the call raises, otherwise the chronologically ordered bars. The second
component of the result lists the upstream queries issued, in order. -/
def get_historical_price (dailyBars : String → Nat → Nat → Option (List Bar))
    (symbol : String) (dateObj : Nat) : Option ℚ × List (String × Nat × Nat) :=
  let h1 := dailyBars symbol dateObj (dateObj + 7)
  let retry := histEmpty h1 && !(pyEndsWith symbol ".NS")
  let h := if retry then dailyBars (symbol ++ ".NS") dateObj (dateObj + 7) else h1
  let trace :=
    if retry then [(symbol, dateObj, dateObj + 7), (symbol ++ ".NS", dateObj, dateObj + 7)]
    else [(symbol, dateObj, dateObj + 7)]
  (match h with
   | some (b :: _) => some b.low
   | _ => none, trace)

/-- Python `a or b` with plain non-null semantics (first non-null wins),
used only by the spec-side normalizer below. -/
def oor (a b : Option ℚ) : Option ℚ :=
  match a with
  | some x => some x
  | none => b

/-- Spec-side `a or b` on strings, first non-null wins. -/
def oorS (a b : Option String) : Option String :=
  match a with
  | some s => some s
  | none => b

/-- A fast snapshot with every field absent (an erroring fast call,
per the spec: "treat its fields as entirely absent"). -/
def emptyFast : FastInfo :=
  { lastPrice := none, regularMarketPrice := none, previousClose := none
    lastVolume := none, volume := none, marketCap := none }

/-- A full snapshot with every field absent. -/
def emptyFull : FullInfo :=
  { currentPrice := none, regularMarketPrice := none, previousClose := none
    regularMarketPreviousClose := none, volume := none, regularMarketVolume := none
    marketCap := none, longName := none, shortName := none, trailingPE := none }

/-- Modelled from the spec (§4.2), not from the code: the Quote Normalizer
with the fallback chain "applied independently per field, first non-null
wins", an erroring snapshot contributing absent fields. Used only to compare
the spec's description against the code's `normalizeQuote`. -/
def specNormalizeQuote (symbol : String) (includeSparkline : Bool)
    (u : Upstream) (now : Nat) : Option Quote :=
  let f := u.fast.getD emptyFast
  let i := u.info.getD emptyFull
  match oor (oor f.lastPrice f.regularMarketPrice)
        (oor i.currentPrice i.regularMarketPrice) with
  | none => none
  | some cv =>
    let pc := (oor f.previousClose (oor i.previousClose i.regularMarketPreviousClose)).getD cv
    let vol := (oor (oor f.lastVolume f.volume) (oor i.volume i.regularMarketVolume)).getD 0
    let mc := (oor f.marketCap i.marketCap).getD 0
    let change := cv - pc
    let changePct := if pc = 0 then 0 else change / pc * 100
    some
      { symbol := pyUpper symbol
        name := (oorS i.longName i.shortName).getD symbol
        price := round2 cv
        change := round2 change
        change_percent := round2 changePct
        volume := pyInt vol
        market_cap := pyInt mc
        pe_ratio := i.trailingPE
        sparkline :=
          if includeSparkline then
            some ((u.hist1mo.getD []).map fun b => round2 b.close)
          else none
        updated_at := now }


/-! ### Helper lemmas -/

theorem foldl_collectQuote (outcome : String → FetchOutcome) :
    ∀ (order : List String) (acc : List Quote),
      order.foldl (collectQuote outcome) acc = acc ++ order.filterMap (pickQuote outcome) := by
  intro order
  induction order with
  | nil => intro acc; simp
  | cons s l ih =>
    intro acc
    rw [List.foldl_cons, ih]
    cases h : outcome s with
    | error => simp [collectQuote, pickQuote, h]
    | ok oq =>
      cases oq with
      | none => simp [collectQuote, pickQuote, h]
      | some q => simp [collectQuote, pickQuote, h]

theorem pickQuote_eq_some (outcome : String → FetchOutcome) (s : String) (q : Quote) :
    pickQuote outcome s = some q ↔ outcome s = FetchOutcome.ok (some q) := by
  cases h : outcome s with
  | error => simp [pickQuote, h]
  | ok oq => cases oq <;> simp [pickQuote, h]

/-! ### Claim C7 -/

/-- C7 (code-bug evidence, the faithful part of the claim): for every
batch, over the fetches that complete, the collection loop drops a symbol
whose fetch raised or whose `get_stock_quote` returned `None`, never
raises itself, and one symbol's failure never aborts the processing of the
other symbols: the batch result is exactly the filterMap of the
completed-with-a-quote symbols, for any completion order. The claim's
remaining conjunct — that a *timed-out* symbol is likewise dropped — is
not true of the code: the per-stock timeout of line 147 can never fire
(see `FetchOutcome`), so a hung fetch is never dropped; it blocks the
batch call forever instead of reaching this loop. -/
theorem popular_stocks_exact_successes (outcome : String → FetchOutcome)
    (order : List String) :
    get_popular_stocks outcome order = order.filterMap (pickQuote outcome) ∧
    ∀ q : Quote, q ∈ get_popular_stocks outcome order ↔
      ∃ s ∈ order, outcome s = FetchOutcome.ok (some q) := by
  have hmain : get_popular_stocks outcome order = order.filterMap (pickQuote outcome) := by
    simpa using foldl_collectQuote outcome order []
  refine ⟨hmain, fun q => ?_⟩
  rw [hmain, List.mem_filterMap]
  constructor
  · rintro ⟨s, hs, hpick⟩
    exact ⟨s, hs, (pickQuote_eq_some outcome s q).mp hpick⟩
  · rintro ⟨s, hs, hout⟩
    exact ⟨s, hs, (pickQuote_eq_some outcome s q).mpr hout⟩

/-! ### Claim C5 -/

/-- C5: `get_historical_price` queries the window from the target date to
target date + 7 days; when that query yields bars it returns the low of the
chronologically first bar without retrying; when it yields no bars (raises
or empty) and the symbol does not already end in ".NS", it retries exactly
once with the ".NS" suffix over the identical window and returns the first
bar's low of that attempt, or absent when that too yields no bars; when the
symbol already ends in ".NS" there is no retry and the lookup returns
absent. No case raises. -/
theorem historical_price_window_and_retry
    (dailyBars : String → Nat → Nat → Option (List Bar)) (s : String) (d : Nat) :
    (∀ (b : Bar) (l : List Bar), dailyBars s d (d + 7) = some (b :: l) →
       get_historical_price dailyBars s d = (some b.low, [(s, d, d + 7)]))
    ∧ (histEmpty (dailyBars s d (d + 7)) = true → pyEndsWith s ".NS" = false →
       get_historical_price dailyBars s d =
         ((match dailyBars (s ++ ".NS") d (d + 7) with
           | some (b :: _) => some b.low
           | _ => none),
          [(s, d, d + 7), (s ++ ".NS", d, d + 7)]))
    ∧ (histEmpty (dailyBars s d (d + 7)) = true → pyEndsWith s ".NS" = true →
       get_historical_price dailyBars s d = (none, [(s, d, d + 7)])) := by
  refine ⟨?_, ?_, ?_⟩
  · intro b l h
    simp [get_historical_price, h, histEmpty]
  · intro h1 h2
    simp [get_historical_price, h1, h2]
  · intro h1 h2
    cases hd : dailyBars s d (d + 7) with
    | none => simp [get_historical_price, hd, h2]
    | some l =>
      rw [hd] at h1
      have : l = [] := by
        simpa [histEmpty, List.isEmpty_iff] using h1
      subst this
      simp [get_historical_price, hd, h2, histEmpty]

/-- Upstream stub for the C5 witness: the plain symbol has no bars, the
".NS"-suffixed symbol has one bar over the same window. -/
def dbW : String → Nat → Nat → Option (List Bar) :=
  fun t s e =>
    if t = "TCS.NS" ∧ s = 100 ∧ e = 107 then some [{ low := 95, close := 99 }]
    else some []

theorem historical_price_window_and_retry_witness :
    get_historical_price dbW "TCS" 100 =
      (some 95, [("TCS", 100, 107), ("TCS.NS", 100, 107)]) := by
  have h := (historical_price_window_and_retry dbW "TCS" 100).2.1
    (by decide) (by decide)
  rw [h]
  decide

/-! ### Claim C4 -/

/-- C4 counterexample: the cache key interpolates the symbol string as
given, so two requests that differ only in letter case are cached under
distinct keys, contrary to the claim that they map to the same key. -/
theorem cacheKey_case_sensitive_cex :
    cacheKey "aapl" false ≠ cacheKey "AAPL" false := by decide

/-- C4 (amended): the cache key is a deterministic composite of the
as-given symbol string and the sparkline flag. `getQuote(S, true)` and
`getQuote(S, false)` use distinct keys, the key determines both components
(so requests differing in either the symbol string or the flag never
satisfy each other), and a cache entry under a different key is invisible
to a lookup; but the symbol is not case-normalized, so case-differing
requests use distinct keys. -/
theorem cacheKey_composite_distinct :
    (∀ s : String, cacheKey s true ≠ cacheKey s false)
    ∧ (∀ (s t : String) (b : Bool), cacheKey s b = cacheKey t b → s = t)
    ∧ (∀ (c : Cache) (k k2 : String) (q : Quote) (t now : Nat), k ≠ k2 →
        cacheGet ((k, q, t) :: c) k2 now = cacheGet c k2 now) := by
  refine ⟨?_, ?_, ?_⟩
  · intro s h
    have h2 := congrArg String.length h
    have e1 : ("quote_" : String).length = 6 := rfl
    have e2 : ("_" : String).length = 1 := rfl
    have e3 : ("True" : String).length = 4 := rfl
    have e4 : ("False" : String).length = 5 := rfl
    simp only [cacheKey, pyBoolStr, String.length_append, e1, e2, e3, e4] at h2
    omega
  · intro s t b h
    have h2 := congrArg String.data h
    simp only [cacheKey, String.data_append] at h2
    have h3 := List.append_cancel_right h2
    have h4 := List.append_cancel_right h3
    have h5 := List.append_cancel_left h4
    cases s; cases t
    exact congrArg String.mk (by simpa using h5)
  · intro c k k2 q t now hne
    have hbeq : (k2 == k) = false := by
      simp only [beq_eq_false_iff_ne, ne_eq]
      exact fun hk => hne hk.symm
    simp [cacheGet, List.lookup_cons, hbeq]

/-- A concrete quote record, used only to instantiate cache lemmas. -/
def qDemo : Quote :=
  { symbol := "AAPL", name := "Apple", price := 150, change := 0
    change_percent := 0, volume := 0, market_cap := 0, pe_ratio := none
    sparkline := none, updated_at := 0 }

theorem cacheKey_composite_distinct_witness :
    cacheGet [(cacheKey "AAPL" true, qDemo, 0)] (cacheKey "AAPL" false) 5 = none := by
  rw [cacheKey_composite_distinct.2.2 [] (cacheKey "AAPL" true) (cacheKey "AAPL" false)
    qDemo 0 5 (by decide)]
  rfl

/-! ### Claim C3 -/

/-- C3: when a `getQuote(S, false)` call misses the cache, fetches and
stores a quote, a second `getQuote(S, false)` call within the freshness
window returns the stored quote from the resulting cache without issuing
any upstream call (final `false` component), whatever the upstream would
now answer; and a cached entry whose age is at least the freshness window
behaves as absent on lookup. -/
theorem cache_hit_within_window :
    (∀ (c : Cache) (t1 t2 : Nat) (s : String) (u u2 : Upstream) (q : Quote) (c2 : Cache),
        get_stock_quote c t1 s false u = (some q, c2, true) →
        t2 - t1 < cacheDuration →
        get_stock_quote c2 t2 s false u2 = (some q, c2, false))
    ∧ (∀ (c : Cache) (key : String) (q : Quote) (t now : Nat),
        c.lookup key = some (q, t) → cacheDuration ≤ now - t →
        cacheGet c key now = none) := by
  constructor
  · intro c t1 t2 s u u2 q c2 hfirst hfresh
    rw [get_stock_quote] at hfirst
    cases hg : cacheGet c (cacheKey s false) t1 with
    | some q0 =>
      rw [hg] at hfirst
      simp at hfirst
    | none =>
      rw [hg] at hfirst
      cases hn : normalizeQuote s false u t1 with
      | none =>
        rw [hn] at hfirst
        simp at hfirst
      | some q0 =>
        rw [hn] at hfirst
        simp only [Prod.mk.injEq, Option.some.injEq] at hfirst
        obtain ⟨hq, hc, -⟩ := hfirst
        subst hq
        rw [get_stock_quote, ← hc]
        have hhit : cacheGet ((cacheKey s false, q0, t1) :: c) (cacheKey s false) t2 = some q0 := by
          simp [cacheGet, List.lookup_cons, hfresh]
        rw [hhit]
  · intro c key q t now hlook hstale
    rw [cacheGet, hlook]
    simp only [ite_eq_right_iff]
    intro hlt
    omega

/-- Fast snapshot used by concrete witnesses: price resolves to 150,
previous close to 100. -/
def fastW : FastInfo :=
  { lastPrice := some 150, regularMarketPrice := none, previousClose := some 100
    lastVolume := some 1000, volume := none, marketCap := some 5000 }

/-- Full snapshot used by concrete witnesses. -/
def infoW : FullInfo :=
  { emptyFull with longName := some "Apple Inc.", trailingPE := some 25 }

/-- Upstream behaviour used by concrete witnesses. -/
def uW : Upstream := { fast := some fastW, info := some infoW, hist1mo := none }

/-- An upstream on which every access raises (used to show a cache hit
consults no upstream at all). -/
def uDead : Upstream := { fast := none, info := none, hist1mo := none }

/-- The quote `get_stock_quote` builds from `uW` at time 0. -/
def qW : Quote :=
  { symbol := "AAPL", name := "Apple Inc.", price := 150, change := 50
    change_percent := 50, volume := 1000, market_cap := 5000
    pe_ratio := some 25, sparkline := none, updated_at := 0 }

theorem normalizeQuote_uW : normalizeQuote "AAPL" false uW 0 = some qW := by
  have hup : pyUpper "AAPL" = "AAPL" := by decide
  norm_num [normalizeQuote, resolveRaw, uW, fastW, infoW, emptyFull, qW, truthy,
    pyOr, pyOrS, truthyS, pyStrD, hup, pyInt, round2, round_eq, Quote.mk.injEq]
  decide

theorem cache_hit_within_window_witness :
    get_stock_quote [(cacheKey "AAPL" false, qW, 0)] 10 "AAPL" false uDead
      = (some qW, [(cacheKey "AAPL" false, qW, 0)], false) := by
  have h1 : get_stock_quote [] 0 "AAPL" false uW
      = (some qW, [(cacheKey "AAPL" false, qW, 0)], true) := by
    rw [get_stock_quote]
    have hmiss : cacheGet [] (cacheKey "AAPL" false) 0 = none := rfl
    rw [hmiss, normalizeQuote_uW]
  exact cache_hit_within_window.1 [] 0 10 "AAPL" uW uDead qW
    [(cacheKey "AAPL" false, qW, 0)] h1 (by decide)

/-! ### Normalizer helper lemmas -/

theorem round2_zero : round2 0 = 0 := by norm_num [round2]

theorem truthy_some_true {x : ℚ} (hx : x ≠ 0) : truthy (some x) = true := by
  simp [truthy, hx]

theorem truthy_none : truthy none = false := rfl

theorem truthy_eq_true_iff {o : Option ℚ} :
    truthy o = true ↔ ∃ x, o = some x ∧ x ≠ 0 := by
  cases o with
  | none => simp [truthy]
  | some x => by_cases hx : x = 0 <;> simp [truthy, hx]

/-- Shared core: when the resolved price is truthy, the full-info access
succeeds, and the resolved previous close is falsy, the quote is produced
with zero change and zero change percent (lines 79–84). -/
theorem zeroChange_core (u : Upstream) (i : FullInfo) (s : String) (sp : Bool)
    (now : Nat) (hinfo : u.info = some i)
    (htr : truthy (resolveRaw u).currentPrice = true)
    (hpc : truthy (resolveRaw u).previousClose = false) :
    ∃ q, normalizeQuote s sp u now = some q ∧ q.change = 0 ∧ q.change_percent = 0 := by
  obtain ⟨x, hcp, hx⟩ := truthy_eq_true_iff.mp htr
  rw [normalizeQuote, hinfo]
  simp [hcp, hpc, truthy_some_true hx, hx, round2_zero]

/-! ### Claim C9 -/

/-- C9: when the resolved current price is truthy but no chain link left a
truthy previous close, previous close defaults to the current price and the
quote has change = 0 and change_percent = 0 exactly; when a truthy (hence
nonzero) previous close `pv` and a nonzero current price `cv` are resolved,
change = round2 (cv - pv) and change_percent = round2 ((cv - pv) / pv * 100),
rounded to 2 decimals at the boundary. (The full-info access must succeed
for any quote to be returned at all.) -/
theorem change_fields_from_previous_close :
    ∀ (u : Upstream) (i : FullInfo) (s : String) (now : Nat), u.info = some i →
      ((truthy (resolveRaw u).currentPrice = true →
        truthy (resolveRaw u).previousClose = false →
        ∃ q, normalizeQuote s false u now = some q ∧ q.change = 0 ∧ q.change_percent = 0)
       ∧ (∀ cv pv : ℚ, (resolveRaw u).currentPrice = some cv → cv ≠ 0 →
          (resolveRaw u).previousClose = some pv → pv ≠ 0 →
          ∃ q, normalizeQuote s false u now = some q ∧
            q.change = round2 (cv - pv) ∧
            q.change_percent = round2 ((cv - pv) / pv * 100))) := by
  intro u i s now hinfo
  constructor
  · intro htr hpc
    exact zeroChange_core u i s false now hinfo htr hpc
  · intro cv pv hcp hcv hpv hpvz
    rw [normalizeQuote, hinfo]
    simp [hcp, hpv, truthy_some_true hcv, truthy_some_true hpvz, hpvz]

/-- Fast snapshot with a truthy price and no previous close at all. -/
def fastN : FastInfo :=
  { lastPrice := some 150, regularMarketPrice := none, previousClose := none
    lastVolume := none, volume := none, marketCap := none }

theorem change_fields_from_previous_close_witness :
    ∃ q, normalizeQuote "AAPL" false
        { fast := some fastN, info := some infoW, hist1mo := none } 0 = some q ∧
      q.change = 0 ∧ q.change_percent = 0 := by
  refine (change_fields_from_previous_close
    { fast := some fastN, info := some infoW, hist1mo := none } infoW "AAPL" 0 rfl).1 ?_ ?_
  · show truthy (some 150) = true
    norm_num [truthy]
  · show truthy none = false
    rfl

/-! ### Claim C10 -/

/-- C10: resolution is by truthiness, not presence. A price chain that
resolves to exactly 0 in both snapshots is treated as unresolved and the
whole fetch returns absent; a fast-snapshot previous close of exactly 0
(with a truthy fast price, so the full snapshot is never consulted) is
replaced by the current price, yielding zero change and zero change
percent rather than a change equal to the full price. -/
theorem truthiness_not_presence :
    ∀ (f : FastInfo) (i : FullInfo) (hist : Option (List Bar)) (s : String)
      (sp : Bool) (now : Nat),
      (pyOr f.lastPrice f.regularMarketPrice = some 0 →
       pyOr i.currentPrice i.regularMarketPrice = some 0 →
       normalizeQuote s sp { fast := some f, info := some i, hist1mo := hist } now = none)
      ∧ (∀ p : ℚ, p ≠ 0 → pyOr f.lastPrice f.regularMarketPrice = some p →
         f.previousClose = some 0 →
         ∃ q, normalizeQuote s sp { fast := some f, info := some i, hist1mo := hist } now = some q
           ∧ q.change = 0 ∧ q.change_percent = 0) := by
  intro f i hist s sp now
  constructor
  · intro hfast hfull
    rw [normalizeQuote, resolveRaw]
    simp [hfast, hfull, truthy]
  · intro p hp hfast hpc
    have hr : resolveRaw { fast := some f, info := some i, hist1mo := hist }
        = { currentPrice := pyOr f.lastPrice f.regularMarketPrice
            previousClose := f.previousClose
            volume := (pyOr f.lastVolume f.volume).getD 0
            marketCap := f.marketCap.getD 0 } := by
      rw [resolveRaw]
      simp [hfast, truthy_some_true hp]
    refine zeroChange_core _ i s sp now rfl ?_ ?_
    · rw [hr]
      simpa [hfast] using truthy_some_true hp
    · rw [hr]
      simp [hpc, truthy]

/-- Fast snapshot whose price chain resolves to exactly 0. -/
def fastZ : FastInfo :=
  { lastPrice := none, regularMarketPrice := some 0, previousClose := none
    lastVolume := none, volume := none, marketCap := none }

/-- Full snapshot whose price chain resolves to exactly 0. -/
def infoZ : FullInfo := { emptyFull with regularMarketPrice := some 0 }

theorem truthiness_not_presence_witness :
    normalizeQuote "ZZZZ" false
      { fast := some fastZ, info := some infoZ, hist1mo := none } 0 = none := by
  exact (truthiness_not_presence fastZ infoZ none "ZZZZ" false 0).1 rfl rfl

/-! ### Claim C1 -/

/-- C1 (amended): the full snapshot's quote fields are consulted only when
the fast snapshot fails to yield a truthy current price. (1) A fast-snapshot
error leaves the full-snapshot chain links to run rather than aborting the
whole normalization: with the fast call raising, the fetch succeeds exactly
when the full snapshot's price chain is truthy. (2) When the fast snapshot
resolves current_price, the result is entirely independent of the full
snapshot's price, previous-close, volume and market-cap fields (only its
name and P/E fields are read): a missing previous_close, volume or
market_cap falls to its default without consulting the full snapshot. -/
theorem full_snapshot_gated_on_price :
    (∀ (i : FullInfo) (hist : Option (List Bar)) (s : String) (sp : Bool) (now : Nat),
        (normalizeQuote s sp { fast := none, info := some i, hist1mo := hist } now).isSome
          = truthy (pyOr i.currentPrice i.regularMarketPrice))
    ∧ (∀ (f : FastInfo) (i i2 : FullInfo) (hist : Option (List Bar)) (s : String)
        (sp : Bool) (now : Nat),
        truthy (pyOr f.lastPrice f.regularMarketPrice) = true →
        i.longName = i2.longName → i.shortName = i2.shortName →
        i.trailingPE = i2.trailingPE →
        normalizeQuote s sp { fast := some f, info := some i, hist1mo := hist } now
          = normalizeQuote s sp { fast := some f, info := some i2, hist1mo := hist } now) := by
  constructor
  · intro i hist s sp now
    rw [normalizeQuote, resolveRaw]
    cases htr : truthy (pyOr i.currentPrice i.regularMarketPrice) <;>
      simp [truthy_none, htr]
  · intro f i i2 hist s sp now htr h1 h2 h3
    have hr : ∀ j : FullInfo,
        resolveRaw { fast := some f, info := some j, hist1mo := hist }
          = { currentPrice := pyOr f.lastPrice f.regularMarketPrice
              previousClose := f.previousClose
              volume := (pyOr f.lastVolume f.volume).getD 0
              marketCap := f.marketCap.getD 0 } := by
      intro j
      rw [resolveRaw]
      simp [htr]
    simp only [normalizeQuote, hr, h1, h2, h3]

/-- C1 counterexample input: the fast snapshot resolves the price (100) but
not the previous close; the full snapshot carries previous close 90. -/
def uC1 : Upstream :=
  { fast := some { lastPrice := some 100, regularMarketPrice := none
                   previousClose := none, lastVolume := none, volume := none
                   marketCap := none }
    info := some { emptyFull with previousClose := some 90 }
    hist1mo := none }

/-- C1 counterexample: on `uC1` the code's normalizer never consults the
full snapshot for the missing previous close — it defaults to the current
price and reports change 0 — whereas the spec's per-field fallback chain
(`specNormalizeQuote`) would take previous close 90 from the full snapshot
and report change 10. -/
theorem full_snapshot_per_field_cex :
    (normalizeQuote "AAPL" false uC1 0).map Quote.change = some 0
    ∧ (specNormalizeQuote "AAPL" false uC1 0).map Quote.change = some 10 := by
  constructor
  · norm_num [normalizeQuote, resolveRaw, uC1, emptyFull, truthy, pyOr, round2_zero]
  · norm_num [specNormalizeQuote, uC1, emptyFull, oor, round2, round_eq]

theorem full_snapshot_gated_on_price_witness :
    normalizeQuote "AAPL" false uC1 0
      = normalizeQuote "AAPL" false
          { fast := some { lastPrice := some 100, regularMarketPrice := none
                           previousClose := none, lastVolume := none, volume := none
                           marketCap := none }
            info := some emptyFull, hist1mo := none } 0 := by
  refine full_snapshot_gated_on_price.2 _ _ emptyFull none "AAPL" false 0 ?_ rfl rfl rfl
  norm_num [pyOr, truthy]

/-! ### Claim C2 -/

/-- C2 (code bug evidence): the price chain resolves (fast snapshot gives a
truthy 150), yet `get_stock_quote` returns absent, because the result
dict's `pe_ratio` entry reads `stock.info` with no guard: when that access
raises, the exception reaches the outer `except` and the whole call returns
`None`. This contradicts the claim (and §7 of the spec) that an
unresolvable current price is the only condition failing the fetch. -/
theorem pe_ratio_read_can_fail_fetch :
    normalizeQuote "AAPL" false { fast := some fastW, info := none, hist1mo := none } 0 = none
    ∧ truthy (resolveRaw { fast := some fastW, info := none, hist1mo := none }).currentPrice
        = true := by
  constructor
  · rw [normalizeQuote, resolveRaw]
    norm_num [fastW, pyOr, truthy]
  · rw [resolveRaw]
    norm_num [fastW, pyOr, truthy]

/-! ### Claim C6 -/

/-- C6 (amended): whenever a sparkline is requested (and the quote is
produced at all, which requires the full-info access to succeed), the
sparkline field is the rounded ordered closes when the history fetch
succeeds non-empty; it is the empty sequence when the fetch raises; but
when the fetch succeeds with an *empty* history the field is left absent
(not set to the empty sequence); and the history outcome never affects
whether the quote fetch succeeds. -/
theorem sparkline_field_shape :
    ∀ (f : Option FastInfo) (i : FullInfo) (s : String) (now : Nat),
      (∀ q : Quote, normalizeQuote s true { fast := f, info := some i, hist1mo := none } now
          = some q → q.sparkline = some [])
      ∧ (∀ (q : Quote) (b : Bar) (l : List Bar),
          normalizeQuote s true { fast := f, info := some i, hist1mo := some (b :: l) } now
            = some q → q.sparkline = some ((b :: l).map fun x => round2 x.close))
      ∧ (∀ q : Quote, normalizeQuote s true { fast := f, info := some i, hist1mo := some [] } now
          = some q → q.sparkline = none)
      ∧ (∀ h h2 : Option (List Bar),
          (normalizeQuote s true { fast := f, info := some i, hist1mo := h } now).isSome
            = (normalizeQuote s true { fast := f, info := some i, hist1mo := h2 } now).isSome) := by
  intro f i s now
  have hr : ∀ h : Option (List Bar),
      resolveRaw { fast := f, info := some i, hist1mo := h }
        = resolveRaw { fast := f, info := some i, hist1mo := none } := by
    intro h
    rw [resolveRaw, resolveRaw]
  refine ⟨?_, ?_, ?_, ?_⟩
  · intro q hq
    rw [normalizeQuote] at hq
    cases htr : truthy (resolveRaw { fast := f, info := some i, hist1mo := none }).currentPrice with
    | false => rw [htr] at hq; simp at hq
    | true =>
      rw [htr] at hq
      simp at hq
      subst hq
      rfl
  · intro q b l hq
    rw [normalizeQuote, hr (some (b :: l))] at hq
    cases htr : truthy (resolveRaw { fast := f, info := some i, hist1mo := none }).currentPrice with
    | false => rw [htr] at hq; simp at hq
    | true =>
      rw [htr] at hq
      simp at hq
      subst hq
      rfl
  · intro q hq
    rw [normalizeQuote, hr (some [])] at hq
    cases htr : truthy (resolveRaw { fast := f, info := some i, hist1mo := none }).currentPrice with
    | false => rw [htr] at hq; simp at hq
    | true =>
      rw [htr] at hq
      simp at hq
      subst hq
      rfl
  · intro h h2
    rw [normalizeQuote, normalizeQuote, hr h, hr h2]
    cases htr : truthy (resolveRaw { fast := f, info := some i, hist1mo := none }).currentPrice <;>
      simp [htr]

/-- Upstream where a sparkline fetch would raise (history access raises). -/
def uSparkErr : Upstream := { fast := some fastW, info := some infoW, hist1mo := none }

/-- Upstream where the sparkline fetch succeeds but returns no rows. -/
def uSparkEmpty : Upstream :=
  { fast := some fastW, info := some infoW, hist1mo := some [] }

/-- The quote built from `uSparkErr` with sparkline requested. -/
def qWs : Quote := { qW with sparkline := some [] }

theorem normalizeQuote_uSparkErr :
    normalizeQuote "AAPL" true uSparkErr 0 = some qWs := by
  have hup : pyUpper "AAPL" = "AAPL" := by decide
  norm_num [normalizeQuote, resolveRaw, uSparkErr, fastW, infoW, emptyFull, qWs, qW,
    truthy, pyOr, pyOrS, truthyS, pyStrD, hup, pyInt, round2, round_eq, Quote.mk.injEq]
  decide

theorem normalizeQuote_uSparkEmpty :
    normalizeQuote "AAPL" true uSparkEmpty 0 = some qW := by
  have hup : pyUpper "AAPL" = "AAPL" := by decide
  norm_num [normalizeQuote, resolveRaw, uSparkEmpty, fastW, infoW, emptyFull, qW,
    truthy, pyOr, pyOrS, truthyS, pyStrD, hup, pyInt, round2, round_eq, Quote.mk.injEq]
  decide

/-- C6 counterexample: sparkline is requested and the history fetch
*succeeds* with an empty frame; the quote is returned but the sparkline
field is absent (`none`), not the empty sequence the claim requires. -/
theorem sparkline_absent_on_empty_cex :
    (normalizeQuote "AAPL" true uSparkEmpty 0).map Quote.sparkline = some none := by
  rw [normalizeQuote_uSparkEmpty]
  rfl

theorem sparkline_field_shape_witness :
    normalizeQuote "AAPL" true uSparkErr 0 = some qWs ∧ qWs.sparkline = some [] := by
  refine ⟨normalizeQuote_uSparkErr, ?_⟩
  exact (sparkline_field_shape (some fastW) infoW "AAPL" 0).1 qWs normalizeQuote_uSparkErr

end StockService
